import Mathlib

/-
Verification development for the local data layer in src/modules/data.py
(class Data): show-list cache, pending-operation queue, single-instance
lock, and the queue reconciliation pass.  Python dicts are embedded as
insertion-ordered association lists; object identity between a show-list
entry and the queue item created by queue_add is embedded by a reference
constructor that dereferences the show list by key.
-/

/-- Values stored in the pickled python dicts: integers or strings. -/
inductive Val where
  | vi : Int → Val
  | vs : String → Val
deriving DecidableEq

/-- A python dict with string keys, kept in insertion order. -/
abbrev Dict := List (String × Val)

/-- Dict lookup, first matching key, as in show[k]. -/
def dget : Dict → String → Option Val
  | [], _ => none
  | p :: rest, k => if p.1 = k then some p.2 else dget rest k

/-- Dict assignment show[k] = v: replace in place when the key exists,
otherwise append the new pair, matching python dict insertion order. -/
def dset : Dict → String → Val → Dict
  | [], k, v => [(k, v)]
  | p :: rest, k, v => if p.1 = k then (k, v) :: rest else p :: dset rest k v

/-- Keys of a dict, matching show.keys() in the source. -/
def dkeys (d : Dict) : List String := d.map Prod.fst

/-- The show list: a python dict from show id values to show dicts. -/
abbrev SList := List (Val × Dict)

/-- Show-list lookup, as in showlist.get(showid). -/
def sget : SList → Val → Option Dict
  | [], _ => none
  | p :: rest, k => if p.1 = k then some p.2 else sget rest k

/-- Show-list assignment showlist[showid] = show. -/
def sset : SList → Val → Dict → SList
  | [], k, v => [(k, v)]
  | p :: rest, k, v => if p.1 = k then (k, v) :: rest else p :: sset rest k v

/-- Python truthiness of showlist.get(showid): a missing key and an empty
dict are both falsy. -/
def truthy : Option Dict → Bool
  | some d => !d.isEmpty
  | none => false

/-- One entry of the in-memory queue.  ref sid embeds the aliasing in
queue_add, where the queue item is the very show object stored in the
show list under sid; own d is an independent dict object (update items
and items unpickled from the queue file). -/
inductive QItem where
  | ref : Val → QItem
  | own : Dict → QItem
deriving DecidableEq

/-- Current dict value of a queue item: ref items dereference the live
show list entry, own items carry their dict. -/
def qval (sl : SList) : QItem → Dict
  | QItem.ref k => (sget sl k).getD []
  | QItem.own d => d

/-- The three files of one namespace: cache_file, queue_file, lock_file.
A file is modelled by the unpickled content it holds, none meaning the
file does not exist. -/
structure FS where
  cacheFile : Option SList
  queueFile : Option (List Dict)
  lockFile : Bool
deriving DecidableEq

/-- Errors raised by the source: utils.DataError, utils.DataFatal,
utils.APIFatal, plus python KeyError, AttributeError and OSError. -/
inductive Err where
  | dataError : String → Err
  | dataFatal : String → Err
  | apiFatal : String → Err
  | keyError : Err
  | attrError : Err
  | osError : Err
deriving DecidableEq

/-- Behaviour of the remote API object: fetch_list either returns a list
or raises utils.APIError with a message; the three mutating calls return
some message when they raise utils.APIError and none on success. -/
structure Api where
  fetchList : Except String SList
  addShow : Dict → Option String
  updateShow : Dict → Option String
  deleteShow : Dict → Option String

/-- Trace of calls made to the remote API object. -/
inductive ApiCall where
  | fetch : ApiCall
  | add : Dict → ApiCall
  | update : Dict → ApiCall
  | delete : Dict → ApiCall
deriving DecidableEq

/-- Process-wide state: the class-level Data.queue list shared by all
instances that never assigned an instance attribute, and the file system,
one FS per namespace. -/
structure World where
  classQueue : List QItem
  fss : Nat → FS

/-- One Data instance: its namespace, self.showlist (none before start,
matching the None class attribute), and self.queue.  queueOwn none means
the instance still reads and mutates the shared class-level list; some q
means an instance attribute was assigned (by _load_queue or queue_clear). -/
structure DataObj where
  ns : Nat
  showlist : Option SList
  queueOwn : Option (List QItem)
deriving DecidableEq

/-- Result of one operation: new world, new instance state, the exception
that escaped (if any), and the API calls dispatched. -/
structure Outcome where
  w : World
  d : DataObj
  err : Option Err
  calls : List ApiCall

def kId : String := "id"
def kTitle : String := "title"
def kAction : String := "action"
def sAdd : String := "add"
def sUpdate : String := "update"
def sDelete : String := "delete"
def aAdd : Val := Val.vs sAdd
def aUpdate : Val := Val.vs sUpdate
def aDelete : Val := Val.vs sDelete
def mDupList : String := "Show already in the list."
def mDupQueue : String := "Show already in the queue."
def mInvalidKey : String := "Invalid key for queue update."
def mEmptyQueue : String := "Queue is already empty."
def mLocked : String := "Database is locked by another process."

/-- Current queue of an instance: the instance attribute when assigned,
else the shared class attribute. -/
def getQueue (w : World) (d : DataObj) : List QItem :=
  match d.queueOwn with
  | some q => q
  | none => w.classQueue

/-- In-place mutation (append, pop) of the list object self.queue refers
to: the instance list when assigned, else the shared class-level list. -/
def putQueue (w : World) (d : DataObj) (q : List QItem) : World × DataObj :=
  match d.queueOwn with
  | some _ => (w, { d with queueOwn := some q })
  | none => ({ w with classQueue := q }, d)

/-- Files of this instance. -/
def getFS (w : World) (d : DataObj) : FS := w.fss d.ns

/-- Replace the files of this instance. -/
def putFS (w : World) (d : DataObj) (fs : FS) : World :=
  { w with fss := fun n => if n = d.ns then fs else w.fss n }

/-- Pickled form of self.queue: every item serialised by value. -/
def serializeQueue (w : World) (d : DataObj) : List Dict :=
  (getQueue w d).map (qval (d.showlist.getD []))

/-- Embeds Data._save_queue: cPickle.dump(self.queue, queue_file). -/
def save_queue (w : World) (d : DataObj) : World :=
  putFS w d { getFS w d with queueFile := some (serializeQueue w d) }

/-- Embeds Data._save_cache: cPickle.dump(self.showlist, cache_file). -/
def save_cache (w : World) (d : DataObj) : World :=
  putFS w d { getFS w d with cacheFile := d.showlist }

/-- Embeds Data._lock: raise DataFatal when the lock file exists,
otherwise create it. -/
def lock_db (fs : FS) : FS × Option Err :=
  if fs.lockFile then (fs, some (Err.dataFatal mLocked))
  else ({ fs with lockFile := true }, none)

/-- Embeds Data._unlock: os.unlink raises OSError when the lock file is
missing, otherwise removes it. -/
def unlock_db (fs : FS) : FS × Option Err :=
  if fs.lockFile then ({ fs with lockFile := false }, none)
  else (fs, some Err.osError)

/-- Queue-loading tail of Data.start: if the queue file exists, unpickle
it into a fresh instance list of independent dict objects. -/
def start_load_queue (w : World) (d : DataObj) (cs : List ApiCall) : Outcome :=
  match (getFS w d).queueFile with
  | some qf => ⟨w, { d with queueOwn := some (qf.map QItem.own) }, none, cs⟩
  | none => ⟨w, d, none, cs⟩

/-- Embeds Data.start: lock the database, load the cache if it exists or
fetch the remote list and save it, then load the queue if present. -/
def start (api : Api) (w : World) (d : DataObj) : Outcome :=
  match lock_db (getFS w d) with
  | (fs1, some e) => ⟨putFS w d fs1, d, some e, []⟩
  | (fs1, none) =>
    let w1 := putFS w d fs1
    match (getFS w1 d).cacheFile with
    | some c => start_load_queue w1 { d with showlist := some c } []
    | none =>
      match api.fetchList with
      | Except.error m => ⟨w1, d, some (Err.apiFatal m), [ApiCall.fetch]⟩
      | Except.ok l =>
        let d1 : DataObj := { d with showlist := some l }
        let w2 := save_cache w1 d1
        start_load_queue w2 d1 [ApiCall.fetch]

/-- Duplicate-add scan of queue_add: for each queue item q evaluate
q[id], then on an id match evaluate q[action] and raise DataError when it
equals add; a missing key raises KeyError. -/
def findDupAdd (sl : SList) (showid : Val) : List QItem → Option Err
  | [] => none
  | q :: rest =>
    match dget (qval sl q) kId with
    | none => some Err.keyError
    | some qid =>
      if qid = showid then
        match dget (qval sl q) kAction with
        | none => some Err.keyError
        | some act =>
          if act = aAdd then some (Err.dataError mDupQueue)
          else findDupAdd sl showid rest
      else findDupAdd sl showid rest

/-- Embeds Data.queue_add.  Note that the show is inserted into the show
list before the duplicate-queue scan runs, and that the queue item is the
very show object (a ref), mutated with an action field. -/
def queue_add (w : World) (d : DataObj) (sh : Dict) : Outcome :=
  match dget sh kId with
  | none => ⟨w, d, some Err.keyError, []⟩
  | some showid =>
    match d.showlist with
    | none => ⟨w, d, some Err.attrError, []⟩
    | some sl =>
      if truthy (sget sl showid) then
        ⟨w, d, some (Err.dataError mDupList), []⟩
      else
        let sl1 := sset sl showid sh
        let d1 : DataObj := { d with showlist := some sl1 }
        match findDupAdd sl1 showid (getQueue w d1) with
        | some e => ⟨w, d1, some e, []⟩
        | none =>
          let sl2 := sset sl1 showid (dset sh kAction aAdd)
          let d2 : DataObj := { d1 with showlist := some sl2 }
          let wd := putQueue w d2 (getQueue w d2 ++ [QItem.ref showid])
          let w3 := save_queue wd.1 wd.2
          let w4 := save_cache w3 wd.2
          match dget sh kTitle with
          | none => ⟨w4, wd.2, some Err.keyError, []⟩
          | some _ => ⟨w4, wd.2, none, []⟩

/-- Merge scan of queue_update: find the first queue item with matching
id and action update, assign q[key] = value on it (through the show list
for a ref item) and stop; a missing q[id] or q[action] on a matching id
raises KeyError.  Returns (found, show list, queue). -/
def mergeLoop (key : String) (value : Val) (tid : Val) (sl : SList) :
    List QItem → Except Err (Bool × SList × List QItem)
  | [] => Except.ok (false, sl, [])
  | q :: rest =>
    match dget (qval sl q) kId with
    | none => Except.error Err.keyError
    | some qid =>
      if qid = tid then
        match dget (qval sl q) kAction with
        | none => Except.error Err.keyError
        | some act =>
          if act = aUpdate then
            match q with
            | QItem.ref k =>
              Except.ok (true, sset sl k (dset ((sget sl k).getD []) key value),
                QItem.ref k :: rest)
            | QItem.own dd =>
              Except.ok (true, sl, QItem.own (dset dd key value) :: rest)
          else
            match mergeLoop key value tid sl rest with
            | Except.error e => Except.error e
            | Except.ok (f, sl2, rest2) => Except.ok (f, sl2, q :: rest2)
      else
        match mergeLoop key value tid sl rest with
        | Except.error e => Except.error e
        | Except.ok (f, sl2, rest2) => Except.ok (f, sl2, q :: rest2)

/-- Final message of queue_update and queue_add paths that read
show[title] after the saves: a missing title raises KeyError after the
state has already been persisted. -/
def finishTitle (w : World) (d : DataObj) (sid : Val) : Outcome :=
  match dget ((sget (d.showlist.getD []) sid).getD []) kTitle with
  | none => ⟨w, d, some Err.keyError, []⟩
  | some _ => ⟨w, d, none, []⟩

/-- Embeds Data.queue_update called with the show object stored in the
show list under sid (the caller obtained it from get).  The invalid-key
check runs first; then show[key] = value mutates the entry in place; then
the merge scan looks for a pending update item for the current show[id];
otherwise a fresh update item dict is appended. -/
def queue_update (w : World) (d : DataObj) (sid : Val) (key : String) (value : Val) :
    Outcome :=
  match sget (d.showlist.getD []) sid with
  | none => ⟨w, d, some Err.attrError, []⟩
  | some sh =>
    if key ∈ dkeys sh then
      let show1 := dset sh key value
      let sl1 := sset (d.showlist.getD []) sid show1
      let d1 : DataObj := { d with showlist := some sl1 }
      match dget show1 kId with
      | none => ⟨w, d1, some Err.keyError, []⟩
      | some tid =>
        match mergeLoop key value tid sl1 (getQueue w d1) with
        | Except.error e => ⟨w, d1, some e, []⟩
        | Except.ok (true, sl2, q2) =>
          let d2 : DataObj := { d1 with showlist := some sl2 }
          let wd := putQueue w d2 q2
          let w3 := save_queue wd.1 wd.2
          let w4 := save_cache w3 wd.2
          finishTitle w4 wd.2 sid
        | Except.ok (false, _, _) =>
          match dget show1 kTitle with
          | none => ⟨w, d1, some Err.keyError, []⟩
          | some t =>
            let item := dset [(kId, tid), (kAction, aUpdate), (kTitle, t)] key value
            let wd := putQueue w d1 (getQueue w d1 ++ [QItem.own item])
            let w3 := save_queue wd.1 wd.2
            let w4 := save_cache w3 wd.2
            finishTitle w4 wd.2 sid
    else ⟨w, d, some (Err.dataError mInvalidKey), []⟩

/-- Embeds Data.queue_clear: DataError on an empty queue, otherwise
self.queue = [] rebinds the instance attribute and the queue is saved. -/
def queue_clear (w : World) (d : DataObj) : Outcome :=
  if (getQueue w d).length = 0 then
    ⟨w, d, some (Err.dataError mEmptyQueue), []⟩
  else
    let d1 : DataObj := { d with queueOwn := some [] }
    ⟨save_queue w d1, d1, none, []⟩

/-- Dispatch of one queue item by its action tag, as show.get(action):
the API call made, or none for an unknown tag (warned and skipped). -/
def dispatchCall (qd : Dict) : Option ApiCall :=
  match dget qd kAction with
  | some a =>
    if a = aAdd then some (ApiCall.add qd)
    else if a = aUpdate then some (ApiCall.update qd)
    else if a = aDelete then some (ApiCall.delete qd)
    else none
  | none => none

/-- Whether the API raises utils.APIError on this item, and its message. -/
def apiFails (api : Api) (qd : Dict) : Option String :=
  match dget qd kAction with
  | some a =>
    if a = aAdd then api.addShow qd
    else if a = aUpdate then api.updateShow qd
    else if a = aDelete then api.deleteShow qd
    else none
  | none => none

/-- One drain pass of process_queue: fuel is len(self.queue) computed
once at loop entry; each step pops the front item, dispatches by action
tag, and on APIError reads show[title] for the warning (KeyError when
missing, aborting the pass) and appends the item back to the tail.
Returns the queue left in place, the calls made, and the escaped error. -/
def passAux (api : Api) (sl : SList) :
    Nat → List QItem → List ApiCall → List QItem × List ApiCall × Option Err
  | 0, q, cs => (q, cs, none)
  | _ + 1, [], cs => ([], cs, some Err.keyError)
  | n + 1, item :: rest, cs =>
    match dispatchCall (qval sl item) with
    | none => passAux api sl n rest cs
    | some c =>
      match apiFails api (qval sl item) with
      | none => passAux api sl n rest (cs ++ [c])
      | some _ =>
        match dget (qval sl item) kTitle with
        | none => (rest, cs ++ [c], some Err.keyError)
        | some _ => passAux api sl n (rest ++ [item]) (cs ++ [c])

/-- Embeds Data.process_queue: a no-op on an empty queue; otherwise run
the pass over len(self.queue) iterations and save the queue afterwards
(no save when an exception escaped the loop). -/
def process_queue (api : Api) (w : World) (d : DataObj) : Outcome :=
  let q := getQueue w d
  if q.length = 0 then ⟨w, d, none, []⟩
  else
    match passAux api (d.showlist.getD []) q.length q [] with
    | (q1, cs, some e) =>
      let wd := putQueue w d q1
      ⟨wd.1, wd.2, some e, cs⟩
    | (q1, cs, none) =>
      let wd := putQueue w d q1
      ⟨save_queue wd.1 wd.2, wd.2, none, cs⟩

/-- Embeds Data.unload: process the queue, then unlock the database; an
exception escaping process_queue skips the unlock. -/
def unload (api : Api) (w : World) (d : DataObj) : Outcome :=
  let o := process_queue api w d
  match o.err with
  | some _ => o
  | none =>
    match unlock_db (getFS o.w o.d) with
    | (fs1, e2) => ⟨putFS o.w o.d fs1, o.d, e2, o.calls⟩

/-
Concrete states, API behaviours and derived compositions used by the
theorems, witnesses and counterexamples below.
-/

def tX : String := "X"

def tY : String := "Y"

def tZ : String := "Z"

def mFail : String := "remote failure"

/-- An API that accepts every call and fetches an empty list. -/
def apiNone : Api :=
  ⟨Except.ok [], fun _ => none, fun _ => none, fun _ => none⟩

/-- A file system with an empty cached list, no queue file and no lock. -/
def fsFresh : FS := ⟨some [], none, false⟩

/-- A show dict with id 1 and a title. -/
def showX : Dict := [(kId, Val.vi 1), (kTitle, Val.vs tX)]

/-- A stale pickled queue item: a pending add for id 1. -/
def qStale : Dict := [(kId, Val.vi 1), (kAction, aAdd)]

/-- Initial world for the class-queue scenario: every namespace has a
cached empty list, no queue file and a free lock. -/
def w0 : World := ⟨[], fun _ => fsFresh⟩

/-- First Data instance, on namespace 1. -/
def dA : DataObj := ⟨1, none, none⟩

/-- Second, freshly constructed Data instance, on namespace 2. -/
def dB : DataObj := ⟨2, none, none⟩

/-- Reachable state for the C2 counterexample: no cache file, but a stale
queue file holding a pending add for id 1. -/
def fsC2 : FS := ⟨none, some [qStale], false⟩

/-- World whose every namespace carries fsC2. -/
def wC2 : World := ⟨[], fun _ => fsC2⟩

/-- A fresh instance on namespace 0 for the C2 counterexample. -/
def dC2 : DataObj := ⟨0, none, none⟩

/-- State for the DuplicateShow branch of the C2 witness: the show with
id 1 is already in the list. -/
def dDup : DataObj := ⟨0, some [(Val.vi 1, showX)], some []⟩

/-- State for the DuplicateQueueItem branch of the C2 witness: empty
list, stale pending-add queue item for id 1. -/
def dStale : DataObj := ⟨0, some [], some [QItem.own qStale]⟩

/-- Queue state for the C1 witness: three well-formed pending items. -/
def item1 : Dict := [(kId, Val.vi 1), (kAction, aAdd), (kTitle, Val.vs tX)]

def item2 : Dict := [(kId, Val.vi 2), (kAction, aUpdate), (kTitle, Val.vs tY)]

def item3 : Dict := [(kId, Val.vi 3), (kAction, aDelete), (kTitle, Val.vs tZ)]

/-- An API that raises the recoverable APIError exactly on item2. -/
def apiFail2 : Api :=
  ⟨Except.ok [], fun _ => none,
   fun dd => if dd = item2 then some mFail else none, fun _ => none⟩

/-- Instance holding the three-item queue for the C1 witness. -/
def dP : DataObj :=
  ⟨0, some [], some [QItem.own item1, QItem.own item2, QItem.own item3]⟩

/-- A queue item that cannot be the target of the merge scan for tid:
its id field exists, and when it matches tid its action tag exists and
is not the update tag. -/
def qOk (sl : SList) (tid : Val) (q : QItem) : Prop :=
  (dget (qval sl q) kId).isSome ∧
  (dget (qval sl q) kId = some tid →
    (dget (qval sl q) kAction).isSome ∧ dget (qval sl q) kAction ≠ some aUpdate)

def kScore : String := "score"

def kEps : String := "episodes"

/-- A show with id, title and score fields, stored under id 1. -/
def showF : Dict := [(kId, Val.vi 1), (kTitle, Val.vs tX), (kScore, Val.vi 5)]

/-- Instance whose list holds showF and whose queue is empty. -/
def dU : DataObj := ⟨0, some [(Val.vi 1, showF)], some []⟩

/-- Boolean test: is this pickled item a pending update for sid, as the
merge scan of queue_update recognises one. -/
def isUpdateFor (sid : Val) (dd : Dict) : Bool :=
  (dget dd kId == some sid) && (dget dd kAction == some aUpdate)

/-- Two consecutive queue_update calls against the same stored show. -/
def upd2 (w : World) (d : DataObj) (sid : Val) (k1 : String) (v1 : Val)
    (k2 : String) (v2 : Val) : Outcome :=
  queue_update (queue_update w d sid k1 v1).w (queue_update w d sid k1 v1).d
    sid k2 v2

/-- A show whose fields include the bookkeeping action tag (as every
show that went through queue_add does). -/
def showC3 : Dict :=
  [(kId, Val.vi 1), (kTitle, Val.vs tX), (kAction, aAdd), (kScore, Val.vi 5)]

/-- Instance for the C3 counterexample. -/
def dC3 : DataObj := ⟨0, some [(Val.vi 1, showC3)], some []⟩

/-- A queue_add followed by a queue_update on the same stored show. -/
def addUpd (w : World) (d : DataObj) (sh : Dict) (sid : Val) (k : String)
    (v : Val) : Outcome :=
  queue_update (queue_add w d sh).w (queue_add w d sh).d sid k v

/-- Fresh started instance with an empty list and empty queue. -/
def dEmpty : DataObj := ⟨0, some [], some []⟩

/-
Basic lemmas about the dict and show-list embeddings.
-/

theorem dget_dset (d : Dict) (k : String) (v : Val) (k2 : String) :
    dget (dset d k v) k2 = if k2 = k then some v else dget d k2 := by
  induction d with
  | nil =>
    simp only [dset, dget]
    split_ifs <;> first
      | rfl
      | (exfalso; simp_all)
  | cons p rest ih =>
    simp only [dset]
    by_cases h : p.1 = k
    · rw [if_pos h]
      simp only [dget]
      split_ifs <;> first
      | rfl
      | (exfalso; simp_all)
    · rw [if_neg h]
      simp only [dget, ih]
      split_ifs <;> first
      | rfl
      | (exfalso; simp_all)

theorem dget_dset_self (d : Dict) (k : String) (v : Val) :
    dget (dset d k v) k = some v := by
  simp [dget_dset]

theorem dget_dset_ne (d : Dict) (k : String) (v : Val) (k2 : String) (h : k2 ≠ k) :
    dget (dset d k v) k2 = dget d k2 := by
  simp [dget_dset, h]

theorem sget_sset (sl : SList) (k : Val) (v : Dict) (k2 : Val) :
    sget (sset sl k v) k2 = if k2 = k then some v else sget sl k2 := by
  induction sl with
  | nil =>
    simp only [sset, sget]
    split_ifs <;> first
      | rfl
      | (exfalso; simp_all)
  | cons p rest ih =>
    simp only [sset]
    by_cases h : p.1 = k
    · rw [if_pos h]
      simp only [sget]
      split_ifs <;> first
      | rfl
      | (exfalso; simp_all)
    · rw [if_neg h]
      simp only [sget, ih]
      split_ifs <;> first
      | rfl
      | (exfalso; simp_all)

theorem sget_sset_self (sl : SList) (k : Val) (v : Dict) :
    sget (sset sl k v) k = some v := by
  simp [sget_sset]

theorem sget_sset_ne (sl : SList) (k : Val) (v : Dict) (k2 : Val) (h : k2 ≠ k) :
    sget (sset sl k v) k2 = sget sl k2 := by
  simp [sget_sset, h]

theorem mem_dkeys_iff (d : Dict) (k : String) :
    k ∈ dkeys d ↔ (dget d k).isSome := by
  induction d with
  | nil => simp [dkeys, dget]
  | cons p rest ih =>
    simp only [dkeys, List.map_cons, List.mem_cons, dget] at ih ⊢
    by_cases h : p.1 = k
    · simp [h]
    · simp only [if_neg h, ih]
      constructor
      · intro hmem
        cases hmem with
        | inl he => exact absurd he.symm h
        | inr hm => exact hm
      · intro hs
        exact Or.inr hs

theorem dkeys_dset_mono (d : Dict) (k : String) (v : Val) (k2 : String)
    (h : k2 ∈ dkeys d) : k2 ∈ dkeys (dset d k v) := by
  rw [mem_dkeys_iff] at h ⊢
  rw [dget_dset]
  by_cases hk : k2 = k <;> simp [hk, h]

/-
Lemmas about the state-access helpers.
-/

theorem getFS_putFS (w : World) (d : DataObj) (fs : FS) :
    getFS (putFS w d fs) d = fs := by
  simp [getFS, putFS]

theorem getQueue_showlist (w : World) (d : DataObj) (x : Option SList) :
    getQueue w { d with showlist := x } = getQueue w d := by
  simp [getQueue]

theorem putQueue_getQueue (w : World) (d : DataObj) (q : List QItem) :
    getQueue (putQueue w d q).1 (putQueue w d q).2 = q := by
  cases h : d.queueOwn <;> simp [putQueue, getQueue, h]

theorem putQueue_fss (w : World) (d : DataObj) (q : List QItem) :
    (putQueue w d q).1.fss = w.fss := by
  cases h : d.queueOwn <;> simp [putQueue, h]

theorem putQueue_ns (w : World) (d : DataObj) (q : List QItem) :
    (putQueue w d q).2.ns = d.ns := by
  cases h : d.queueOwn <;> simp [putQueue, h]

theorem putQueue_showlist (w : World) (d : DataObj) (q : List QItem) :
    (putQueue w d q).2.showlist = d.showlist := by
  cases h : d.queueOwn <;> simp [putQueue, h]

theorem getFS_congr (w w2 : World) (d d2 : DataObj)
    (h1 : w2.fss = w.fss) (h2 : d2.ns = d.ns) : getFS w2 d2 = getFS w d := by
  simp [getFS, h1, h2]

theorem getFS_save_queue (w : World) (d : DataObj) :
    getFS (save_queue w d) d =
      { getFS w d with queueFile := some (serializeQueue w d) } := by
  simp [save_queue, getFS_putFS]

theorem getFS_save_cache (w : World) (d : DataObj) :
    getFS (save_cache w d) d = { getFS w d with cacheFile := d.showlist } := by
  simp [save_cache, getFS_putFS]

theorem getQueue_putFS (w : World) (d d2 : DataObj) (fs : FS) :
    getQueue (putFS w d fs) d2 = getQueue w d2 := by
  cases h : d2.queueOwn <;> simp [putFS, getQueue, h]

/-
Lemmas about the queue-loading tail of start.
-/

theorem start_load_queue_err (w : World) (d : DataObj) (cs : List ApiCall) :
    (start_load_queue w d cs).err = none := by
  cases h : (getFS w d).queueFile <;> simp [start_load_queue, h]

theorem start_load_queue_calls (w : World) (d : DataObj) (cs : List ApiCall) :
    (start_load_queue w d cs).calls = cs := by
  cases h : (getFS w d).queueFile <;> simp [start_load_queue, h]

theorem start_load_queue_showlist (w : World) (d : DataObj) (cs : List ApiCall) :
    (start_load_queue w d cs).d.showlist = d.showlist := by
  cases h : (getFS w d).queueFile <;> simp [start_load_queue, h]

theorem start_load_queue_w (w : World) (d : DataObj) (cs : List ApiCall) :
    (start_load_queue w d cs).w = w := by
  cases h : (getFS w d).queueFile <;> simp [start_load_queue, h]

theorem start_load_queue_ns (w : World) (d : DataObj) (cs : List ApiCall) :
    (start_load_queue w d cs).d.ns = d.ns := by
  cases h : (getFS w d).queueFile <;> simp [start_load_queue, h]

/-
Concrete states and API behaviours used by witnesses and counterexamples.
-/

/-
C8.
-/

/-- C8: lock round-trip.  An acquire on a free lock succeeds; a release
right after leaves no marker and raises nothing; a second acquire while
the first is unreleased fails with the DataFatal lock-held error. -/
theorem lock_roundtrip_spec (fs : FS) (h : fs.lockFile = false) :
    (lock_db fs).2 = none ∧
    (unlock_db (lock_db fs).1).2 = none ∧
    (unlock_db (lock_db fs).1).1.lockFile = false ∧
    (lock_db (lock_db fs).1).2 = some (Err.dataFatal mLocked) := by
  simp [lock_db, unlock_db, h]

/-- C8 witness: the round trip evaluated on the concrete fresh file
system. -/
theorem lock_roundtrip_spec_witness :
    (lock_db fsFresh).2 = none ∧
    (unlock_db (lock_db fsFresh).1).2 = none ∧
    (unlock_db (lock_db fsFresh).1).1.lockFile = false ∧
    (lock_db (lock_db fsFresh).1).2 = some (Err.dataFatal mLocked) :=
  lock_roundtrip_spec fsFresh (by decide)

/-- Start_load_queue leaves the files of the instance unchanged. -/
theorem start_load_queue_getFS (w : World) (d : DataObj) (cs : List ApiCall) :
    getFS (start_load_queue w d cs).w (start_load_queue w d cs).d = getFS w d := by
  unfold start_load_queue
  cases h : (getFS w d).queueFile <;> simp [h, getFS]

/-
C6.
-/

/-- C6: queue_clear fails with the empty-queue DataError on an empty
queue and changes nothing; on a non-empty queue it empties the in-memory
queue, persists the emptied queue file, and leaves the show list and the
cache file untouched. -/
theorem queue_clear_spec (w : World) (d : DataObj) :
    (getQueue w d = [] →
      queue_clear w d = ⟨w, d, some (Err.dataError mEmptyQueue), []⟩) ∧
    (getQueue w d ≠ [] →
      (queue_clear w d).err = none ∧
      getQueue (queue_clear w d).w (queue_clear w d).d = [] ∧
      (getFS (queue_clear w d).w (queue_clear w d).d).queueFile = some [] ∧
      (queue_clear w d).d.showlist = d.showlist ∧
      (getFS (queue_clear w d).w (queue_clear w d).d).cacheFile =
        (getFS w d).cacheFile ∧
      (getFS (queue_clear w d).w (queue_clear w d).d).lockFile =
        (getFS w d).lockFile) := by
  constructor
  · intro he
    simp [queue_clear, he]
  · intro hne
    have hif : ((getQueue w d).length = 0) = False := by
      simp [List.length_eq_zero, hne]
    have hq : queue_clear w d = ⟨save_queue w { d with queueOwn := some [] },
        { d with queueOwn := some [] }, none, []⟩ := by
      simp [queue_clear, hif]
    rw [hq]
    refine ⟨rfl, ?_, ?_, rfl, ?_, ?_⟩
    · simp [save_queue, getQueue_putFS, getQueue]
    · rw [getFS_save_queue]
      simp [serializeQueue, getQueue]
    · rw [getFS_save_queue]
      simp [getFS]
    · rw [getFS_save_queue]
      simp [getFS]

/-- C6 witness: clearing a one-item queue empties and persists it; the
empty branch raises the empty-queue error on a fresh state. -/
theorem queue_clear_spec_witness :
    (queue_clear ⟨[], fun _ => fsFresh⟩ ⟨0, some [], some []⟩ =
      ⟨⟨[], fun _ => fsFresh⟩, ⟨0, some [], some []⟩,
        some (Err.dataError mEmptyQueue), []⟩) ∧
    ((queue_clear ⟨[], fun _ => fsFresh⟩ ⟨0, some [], some [QItem.own []]⟩).err =
        none ∧
      getQueue (queue_clear ⟨[], fun _ => fsFresh⟩ ⟨0, some [], some [QItem.own []]⟩).w
        (queue_clear ⟨[], fun _ => fsFresh⟩ ⟨0, some [], some [QItem.own []]⟩).d = []) :=
  ⟨(queue_clear_spec ⟨[], fun _ => fsFresh⟩ ⟨0, some [], some []⟩).1 rfl,
   ((queue_clear_spec ⟨[], fun _ => fsFresh⟩ ⟨0, some [], some [QItem.own []]⟩).2
      (by decide)).1,
   ((queue_clear_spec ⟨[], fun _ => fsFresh⟩ ⟨0, some [], some [QItem.own []]⟩).2
      (by decide)).2.1⟩

/-
C4.
-/

/-- C4: when the cache file exists, start loads the show list from it and
makes no remote fetch; when it does not exist, start fetches the remote
list, stores it as the show list and immediately persists it to the cache
file; a fetch failure escapes as the fatal APIFatal error. -/
theorem start_cache_or_fetch_spec (api : Api) (w : World) (d : DataObj)
    (hlock : (getFS w d).lockFile = false) :
    (∀ c, (getFS w d).cacheFile = some c →
      (start api w d).err = none ∧
      (start api w d).d.showlist = some c ∧
      (start api w d).calls = []) ∧
    ((getFS w d).cacheFile = none →
      (∀ l, api.fetchList = Except.ok l →
        (start api w d).err = none ∧
        (start api w d).d.showlist = some l ∧
        (getFS (start api w d).w (start api w d).d).cacheFile = some l ∧
        (start api w d).calls = [ApiCall.fetch]) ∧
      (∀ m, api.fetchList = Except.error m →
        (start api w d).err = some (Err.apiFatal m) ∧
        (start api w d).d.showlist = d.showlist ∧
        (start api w d).calls = [ApiCall.fetch])) := by
  have hlk : lock_db (getFS w d) = ({ getFS w d with lockFile := true }, none) := by
    simp [lock_db, hlock]
  constructor
  · intro c hc
    simp only [start, hlk, getFS_putFS, hc]
    exact ⟨start_load_queue_err _ _ _,
      (start_load_queue_showlist _ _ _).trans rfl,
      start_load_queue_calls _ _ _⟩
  · intro hc
    constructor
    · intro l hl
      simp only [start, hlk, getFS_putFS, hc, hl]
      refine ⟨start_load_queue_err _ _ _,
        (start_load_queue_showlist _ _ _).trans rfl, ?_,
        start_load_queue_calls _ _ _⟩
      rw [start_load_queue_getFS, getFS_save_cache]
    · intro m hm
      simp [start, hlk, getFS_putFS, hc, hm]

/-- C4 witness: with an existing empty cache the list is loaded and no
fetch happens; on a cacheless namespace the fetched list is stored and
persisted, and a failing fetch raises APIFatal. -/
theorem start_cache_or_fetch_spec_witness :
    ((start apiNone ⟨[], fun _ => fsFresh⟩ ⟨0, none, none⟩).err = none ∧
      (start apiNone ⟨[], fun _ => fsFresh⟩ ⟨0, none, none⟩).d.showlist = some [] ∧
      (start apiNone ⟨[], fun _ => fsFresh⟩ ⟨0, none, none⟩).calls = []) ∧
    ((start apiNone ⟨[], fun _ => FS.mk none none false⟩ ⟨0, none, none⟩).err = none ∧
      (start apiNone ⟨[], fun _ => FS.mk none none false⟩ ⟨0, none, none⟩).d.showlist =
        some [] ∧
      (getFS (start apiNone ⟨[], fun _ => FS.mk none none false⟩ ⟨0, none, none⟩).w
        (start apiNone ⟨[], fun _ => FS.mk none none false⟩ ⟨0, none, none⟩).d).cacheFile =
        some [] ∧
      (start apiNone ⟨[], fun _ => FS.mk none none false⟩ ⟨0, none, none⟩).calls =
        [ApiCall.fetch]) ∧
    ((start ⟨Except.error mFail, fun _ => none, fun _ => none, fun _ => none⟩
        ⟨[], fun _ => FS.mk none none false⟩ ⟨0, none, none⟩).err =
      some (Err.apiFatal mFail)) :=
  ⟨(start_cache_or_fetch_spec apiNone ⟨[], fun _ => fsFresh⟩ ⟨0, none, none⟩
      (by decide)).1 [] rfl,
   ((start_cache_or_fetch_spec apiNone ⟨[], fun _ => FS.mk none none false⟩
      ⟨0, none, none⟩ (by decide)).2 rfl).1 [] rfl,
   (((start_cache_or_fetch_spec
      ⟨Except.error mFail, fun _ => none, fun _ => none, fun _ => none⟩
      ⟨[], fun _ => FS.mk none none false⟩ ⟨0, none, none⟩ (by decide)).2 rfl).2
      mFail rfl).1⟩

/-
C5.
-/

/-- C5: the claim that the queue is empty after start whenever the queue
file does not exist fails on the code, because Data.queue is a mutable
class-level default shared by instances.  Instance A (namespace 1) starts
and queues an add, which appends to the shared class-level list; instance
B is freshly constructed on namespace 2, whose queue file does not exist,
yet after B.start its queue is the polluted shared list, not empty. -/
theorem class_queue_pollution :
    (start apiNone w0 dA).err = none ∧
    (queue_add (start apiNone w0 dA).w (start apiNone w0 dA).d showX).err = none ∧
    (getFS (queue_add (start apiNone w0 dA).w (start apiNone w0 dA).d showX).w
      dB).queueFile = none ∧
    (start apiNone
      (queue_add (start apiNone w0 dA).w (start apiNone w0 dA).d showX).w
      dB).err = none ∧
    getQueue
      (start apiNone
        (queue_add (start apiNone w0 dA).w (start apiNone w0 dA).d showX).w dB).w
      (start apiNone
        (queue_add (start apiNone w0 dA).w (start apiNone w0 dA).d showX).w dB).d ≠
      [] := by
  decide

/-
C2.
-/

/-- C2 counterexample: starting on a namespace with no cache (bootstrap
fetch returns an empty list) but a stale queue file yields a state in
which queue_add fails with the duplicate-queue-item DataError, yet the
show list is not as it was before the call: the show was already
inserted when the error was raised. -/
theorem queue_add_failure_counterexample :
    (start apiNone wC2 dC2).err = none ∧
    (queue_add (start apiNone wC2 dC2).w (start apiNone wC2 dC2).d showX).err =
      some (Err.dataError mDupQueue) ∧
    (start apiNone wC2 dC2).d.showlist = some [] ∧
    (queue_add (start apiNone wC2 dC2).w (start apiNone wC2 dC2).d showX).d.showlist =
      some [(Val.vi 1, showX)] := by
  decide

/-- C2 amended: a DuplicateShow failure aborts queue_add with the list
and queue exactly as before; a DuplicateQueueItem failure leaves the
queue, the files and the world unchanged, but the show has already been
inserted into the in-memory show list when the error is raised. -/
theorem queue_add_recoverable_amended (w : World) (d : DataObj) (sh : Dict)
    (sid : Val) (sl : SList)
    (hid : dget sh kId = some sid) (hsl : d.showlist = some sl) :
    (truthy (sget sl sid) = true →
      queue_add w d sh = ⟨w, d, some (Err.dataError mDupList), []⟩) ∧
    (truthy (sget sl sid) = false →
      findDupAdd (sset sl sid sh) sid (getQueue w d) =
        some (Err.dataError mDupQueue) →
      (queue_add w d sh).err = some (Err.dataError mDupQueue) ∧
      (queue_add w d sh).d.showlist = some (sset sl sid sh) ∧
      (queue_add w d sh).d.queueOwn = d.queueOwn ∧
      (queue_add w d sh).w = w) := by
  constructor
  · intro ht
    simp [queue_add, hid, hsl, ht]
  · intro ht hdup
    simp [queue_add, hid, hsl, ht, getQueue_showlist, hdup]

/-- C2 witness: both recoverable branches of the amended statement
evaluated at concrete states. -/
theorem queue_add_recoverable_amended_witness :
    (queue_add w0 dDup showX = ⟨w0, dDup, some (Err.dataError mDupList), []⟩) ∧
    ((queue_add w0 dStale showX).err = some (Err.dataError mDupQueue) ∧
      (queue_add w0 dStale showX).d.showlist = some (sset [] (Val.vi 1) showX) ∧
      (queue_add w0 dStale showX).d.queueOwn = dStale.queueOwn ∧
      (queue_add w0 dStale showX).w = w0) :=
  ⟨(queue_add_recoverable_amended w0 dDup showX (Val.vi 1) [(Val.vi 1, showX)]
      (by decide) rfl).1 (by decide),
   (queue_add_recoverable_amended w0 dStale showX (Val.vi 1) []
      (by decide) rfl).2 (by decide) (by decide)⟩

/-
Drain-pass lemmas for process_queue.
-/

/-- Distinctness of the three action tag values. -/
theorem aUpdate_ne_aAdd : aUpdate ≠ aAdd := by decide

theorem aDelete_ne_aAdd : aDelete ≠ aAdd := by decide

theorem aDelete_ne_aUpdate : aDelete ≠ aUpdate := by decide

/-- When no API call is dispatched for an item (unknown action tag), no
API failure can be observed for it either. -/
theorem apiFails_none_of_dispatch (api : Api) (qd : Dict)
    (h : dispatchCall qd = none) : apiFails api qd = none := by
  cases ha : dget qd kAction with
  | none => simp [apiFails, ha]
  | some a =>
    simp only [dispatchCall, ha] at h
    simp only [apiFails, ha]
    by_cases h1 : a = aAdd
    · simp [h1] at h
    · by_cases h2 : a = aUpdate
      · subst h2
        rw [if_neg aUpdate_ne_aAdd] at h
        exact absurd h (by simp)
      · by_cases h3 : a = aDelete
        · subst h3
          rw [if_neg aDelete_ne_aAdd, if_neg aDelete_ne_aUpdate] at h
          exact absurd h (by simp)
        · rw [if_neg h1, if_neg h2, if_neg h3]

theorem length_filterMap_isSome {α β : Type} (f : α → Option β) :
    ∀ l : List α, (∀ i ∈ l, (f i).isSome) → (l.filterMap f).length = l.length := by
  intro l
  induction l with
  | nil => intro _; rfl
  | cons x rest ih =>
    intro h
    have hx := h x (List.mem_cons_self x rest)
    obtain ⟨y, hy⟩ := Option.isSome_iff_exists.mp hx
    simp [List.filterMap_cons, hy,
      ih (fun i hi => h i (List.mem_cons_of_mem x hi))]

/-- Step of the drain pass: an item with no dispatched call is skipped. -/
theorem passAux_cons_skip (api : Api) (sl : SList) (n : Nat) (x : QItem)
    (rest : List QItem) (cs : List ApiCall)
    (hd : dispatchCall (qval sl x) = none) :
    passAux api sl (n + 1) (x :: rest) cs = passAux api sl n rest cs := by
  simp only [passAux, hd]

/-- Step of the drain pass: a successful API call removes the item. -/
theorem passAux_cons_ok (api : Api) (sl : SList) (n : Nat) (x : QItem)
    (rest : List QItem) (cs : List ApiCall) (c : ApiCall)
    (hd : dispatchCall (qval sl x) = some c)
    (ha : apiFails api (qval sl x) = none) :
    passAux api sl (n + 1) (x :: rest) cs = passAux api sl n rest (cs ++ [c]) := by
  simp only [passAux, hd, ha]

/-- Step of the drain pass: a failing API call on a titled item moves the
item to the tail. -/
theorem passAux_cons_fail (api : Api) (sl : SList) (n : Nat) (x : QItem)
    (rest : List QItem) (cs : List ApiCall) (c : ApiCall) (m : String) (t : Val)
    (hd : dispatchCall (qval sl x) = some c)
    (ha : apiFails api (qval sl x) = some m)
    (htt : dget (qval sl x) kTitle = some t) :
    passAux api sl (n + 1) (x :: rest) cs =
      passAux api sl n (rest ++ [x]) (cs ++ [c]) := by
  simp only [passAux, hd, ha, htt]

/-- One full pass over pending ++ failed with fuel equal to the number of
pending items: every pending item is handled exactly once, items whose
API call raises are moved to the tail in order, and the calls made are
the dispatched calls of the pending items in order. -/
theorem passAux_spec (api : Api) (sl : SList) (pending : List QItem) :
    ∀ (failed : List QItem) (cs : List ApiCall),
    (∀ i ∈ pending, (apiFails api (qval sl i)).isSome →
      (dget (qval sl i) kTitle).isSome) →
    passAux api sl pending.length (pending ++ failed) cs =
      (failed ++ pending.filter (fun i => (apiFails api (qval sl i)).isSome),
       cs ++ pending.filterMap (fun i => dispatchCall (qval sl i)),
       none) := by
  induction pending with
  | nil =>
    intro failed cs _
    simp [passAux]
  | cons x rest ih =>
    intro failed cs h
    have hrest : ∀ i ∈ rest, (apiFails api (qval sl i)).isSome →
        (dget (qval sl i) kTitle).isSome :=
      fun i hi => h i (List.mem_cons_of_mem x hi)
    rw [List.length_cons, List.cons_append]
    cases hd : dispatchCall (qval sl x) with
    | none =>
      have ha : apiFails api (qval sl x) = none :=
        apiFails_none_of_dispatch api (qval sl x) hd
      rw [passAux_cons_skip api sl rest.length x (rest ++ failed) cs hd,
        ih failed cs hrest]
      simp [List.filter_cons, List.filterMap_cons, hd, ha]
    | some c =>
      cases ha : apiFails api (qval sl x) with
      | none =>
        rw [passAux_cons_ok api sl rest.length x (rest ++ failed) cs c hd ha,
          ih failed (cs ++ [c]) hrest]
        simp [List.filter_cons, List.filterMap_cons, hd, ha, List.append_assoc]
      | some m =>
        have ht : (dget (qval sl x) kTitle).isSome :=
          h x (List.mem_cons_self x rest) (by simp [ha])
        obtain ⟨t, htt⟩ := Option.isSome_iff_exists.mp ht
        rw [passAux_cons_fail api sl rest.length x (rest ++ failed) cs c m t hd ha htt,
          List.append_assoc rest failed [x],
          ih (failed ++ [x]) (cs ++ [c]) hrest]
        simp [List.filter_cons, List.filterMap_cons, hd, ha, List.append_assoc]

theorem getQueue_save_queue (w : World) (d : DataObj) :
    getQueue (save_queue w d) d = getQueue w d := by
  simp [save_queue, getQueue_putFS]

theorem getFS_putQueue (w : World) (d : DataObj) (q : List QItem) :
    getFS (putQueue w d q).1 (putQueue w d q).2 = getFS w d := by
  cases h : d.queueOwn <;> simp [putQueue, h, getFS]

/-- Closed form of process_queue under the assumption that every item
whose API call fails carries a title (so the warning message raises no
KeyError): a no-op on the empty queue; otherwise the failed items stay,
in order, and the queue file is saved. -/
theorem process_queue_core (api : Api) (w : World) (d : DataObj)
    (htitle : ∀ i ∈ getQueue w d,
      (apiFails api (qval (d.showlist.getD []) i)).isSome →
      (dget (qval (d.showlist.getD []) i) kTitle).isSome) :
    process_queue api w d =
      if getQueue w d = [] then ⟨w, d, none, []⟩
      else
        ⟨save_queue (putQueue w d ((getQueue w d).filter
            (fun i => (apiFails api (qval (d.showlist.getD []) i)).isSome))).1
          (putQueue w d ((getQueue w d).filter
            (fun i => (apiFails api (qval (d.showlist.getD []) i)).isSome))).2,
         (putQueue w d ((getQueue w d).filter
            (fun i => (apiFails api (qval (d.showlist.getD []) i)).isSome))).2,
         none,
         (getQueue w d).filterMap
           (fun i => dispatchCall (qval (d.showlist.getD []) i))⟩ := by
  by_cases he : getQueue w d = []
  · simp [process_queue, he]
  · rw [if_neg he]
    have hlen : ¬(getQueue w d).length = 0 := by
      simpa [List.length_eq_zero] using he
    have hp := passAux_spec api (d.showlist.getD []) (getQueue w d) [] [] htitle
    rw [List.append_nil] at hp
    simp only [process_queue, if_neg hlen, hp]
    simp

/-
C1.
-/

/-- C1: for a drain call on a non-empty queue of well-formed items (every
item carries a recognised action tag and a title), every item present at
call time is dispatched to the API exactly once, in order, with no retry
inside the pass; items whose call raises the recoverable APIError remain,
in their original relative order, and exactly they are persisted as the
new queue file after the full pass. -/
theorem process_queue_drain_spec (api : Api) (w : World) (d : DataObj)
    (hne : getQueue w d ≠ [])
    (hwf : ∀ i ∈ getQueue w d,
      (dispatchCall (qval (d.showlist.getD []) i)).isSome ∧
      (dget (qval (d.showlist.getD []) i) kTitle).isSome) :
    (process_queue api w d).err = none ∧
    (process_queue api w d).calls =
      (getQueue w d).filterMap
        (fun i => dispatchCall (qval (d.showlist.getD []) i)) ∧
    (process_queue api w d).calls.length = (getQueue w d).length ∧
    getQueue (process_queue api w d).w (process_queue api w d).d =
      (getQueue w d).filter
        (fun i => (apiFails api (qval (d.showlist.getD []) i)).isSome) ∧
    (getFS (process_queue api w d).w (process_queue api w d).d).queueFile =
      some (((getQueue w d).filter
        (fun i => (apiFails api (qval (d.showlist.getD []) i)).isSome)).map
          (qval (d.showlist.getD []))) := by
  have hc := process_queue_core api w d (fun i hi _ => (hwf i hi).2)
  rw [if_neg hne] at hc
  rw [hc]
  refine ⟨rfl, rfl, ?_, ?_, ?_⟩
  · exact length_filterMap_isSome _ _ (fun i hi => (hwf i hi).1)
  · rw [getQueue_save_queue, putQueue_getQueue]
  · rw [getFS_save_queue]
    simp only [serializeQueue, putQueue_getQueue, putQueue_showlist]

/-- C1 witness: draining a three-item queue where only item 2 fails makes
three API calls and leaves exactly item 2, persisted in the queue file. -/
theorem process_queue_drain_spec_witness :
    (process_queue apiFail2 w0 dP).err = none ∧
    (process_queue apiFail2 w0 dP).calls.length = 3 ∧
    getQueue (process_queue apiFail2 w0 dP).w (process_queue apiFail2 w0 dP).d =
      [QItem.own item2] ∧
    (getFS (process_queue apiFail2 w0 dP).w
      (process_queue apiFail2 w0 dP).d).queueFile = some [item2] := by
  have h := process_queue_drain_spec apiFail2 w0 dP (by decide) (by decide)
  refine ⟨h.1, ?_, ?_, ?_⟩
  · rw [h.2.2.1]; decide
  · rw [h.2.2.2.1]; decide
  · rw [h.2.2.2.2]; decide

/-- Unlock on a present lock marker removes it and raises nothing. -/
theorem unlock_db_of_locked (fs : FS) (h : fs.lockFile = true) :
    unlock_db fs = ({ fs with lockFile := false }, none) := by
  simp [unlock_db, h]

/-
C9.
-/

/-- C9: unload performs one drain and then releases the lock
unconditionally: for every API behaviour, provided the lock marker is
present and every queued item carries a title, unload ends with the lock
marker removed, even when the drain leaves failed items in the queue. -/
theorem unload_releases_lock (api : Api) (w : World) (d : DataObj)
    (hlock : (getFS w d).lockFile = true)
    (htitle : ∀ i ∈ getQueue w d,
      (dget (qval (d.showlist.getD []) i) kTitle).isSome) :
    (unload api w d).err = none ∧
    (getFS (unload api w d).w (unload api w d).d).lockFile = false ∧
    getQueue (unload api w d).w (unload api w d).d =
      (getQueue w d).filter
        (fun i => (apiFails api (qval (d.showlist.getD []) i)).isSome) := by
  have hc := process_queue_core api w d (fun i hi _ => htitle i hi)
  unfold unload
  rw [hc]
  by_cases he : getQueue w d = []
  · rw [if_pos he]
    simp [unlock_db, hlock, getFS_putFS, getQueue_putFS, he]
  · rw [if_neg he]
    set F := (getQueue w d).filter
      (fun i => (apiFails api (qval (d.showlist.getD []) i)).isSome) with hF
    set wd := putQueue w d F with hwd
    have hL : (getFS (save_queue wd.1 wd.2) wd.2).lockFile = true := by
      rw [getFS_save_queue]
      show (getFS wd.1 wd.2).lockFile = true
      rw [hwd, getFS_putQueue]
      exact hlock
    have hu := unlock_db_of_locked _ hL
    simp only [hu]
    refine ⟨trivial, ?_, ?_⟩
    · simp [getFS_putFS]
    · rw [getQueue_putFS, getQueue_save_queue, hwd, putQueue_getQueue]

/-- C9 witness: unloading with an API that rejects every call still
releases the lock, with the failed items retained. -/
theorem unload_releases_lock_witness :
    (unload
      ⟨Except.ok [], fun _ => some mFail, fun _ => some mFail, fun _ => some mFail⟩
      ⟨[], fun _ => FS.mk (some []) none true⟩ dP).err = none ∧
    (getFS (unload
      ⟨Except.ok [], fun _ => some mFail, fun _ => some mFail, fun _ => some mFail⟩
      ⟨[], fun _ => FS.mk (some []) none true⟩ dP).w
      (unload
      ⟨Except.ok [], fun _ => some mFail, fun _ => some mFail, fun _ => some mFail⟩
      ⟨[], fun _ => FS.mk (some []) none true⟩ dP).d).lockFile = false ∧
    getQueue (unload
      ⟨Except.ok [], fun _ => some mFail, fun _ => some mFail, fun _ => some mFail⟩
      ⟨[], fun _ => FS.mk (some []) none true⟩ dP).w
      (unload
      ⟨Except.ok [], fun _ => some mFail, fun _ => some mFail, fun _ => some mFail⟩
      ⟨[], fun _ => FS.mk (some []) none true⟩ dP).d =
      (getQueue ⟨[], fun _ => FS.mk (some []) none true⟩ dP).filter
        (fun i => (apiFails
          ⟨Except.ok [], fun _ => some mFail, fun _ => some mFail, fun _ => some mFail⟩
          (qval (dP.showlist.getD []) i)).isSome) :=
  unload_releases_lock
    ⟨Except.ok [], fun _ => some mFail, fun _ => some mFail, fun _ => some mFail⟩
    ⟨[], fun _ => FS.mk (some []) none true⟩ dP (by decide) (by decide)

/-
Merge-scan lemmas for queue_update.
-/

/-- The only exception the merge scan can raise is KeyError. -/
theorem mergeLoop_error (key : String) (value : Val) (tid : Val) :
    ∀ (qs : List QItem) (sl : SList) (e : Err),
    mergeLoop key value tid sl qs = Except.error e → e = Err.keyError := by
  intro qs
  induction qs with
  | nil =>
    intro sl e h
    simp [mergeLoop] at h
  | cons q rest ih =>
    intro sl e h
    cases hid : dget (qval sl q) kId with
    | none =>
      simp [mergeLoop, hid] at h
      exact h.symm
    | some qid =>
      by_cases he : qid = tid
      · cases hact : dget (qval sl q) kAction with
        | none =>
          simp [mergeLoop, hid, he, hact] at h
          exact h.symm
        | some act =>
          by_cases hu : act = aUpdate
          · cases q with
            | ref kk => simp [mergeLoop, hid, he, hact, hu] at h
            | own dd => simp [mergeLoop, hid, he, hact, hu] at h
          · cases hm : mergeLoop key value tid sl rest with
            | error e2 =>
              have h2 := ih sl e2 hm
              simp [mergeLoop, hid, he, hact, hu, hm] at h
              rw [← h]
              exact h2
            | ok tr =>
              obtain ⟨f1, sl1, r1⟩ := tr
              simp [mergeLoop, hid, he, hact, hu, hm] at h
      · cases hm : mergeLoop key value tid sl rest with
        | error e2 =>
          have h2 := ih sl e2 hm
          simp [mergeLoop, hid, he, hm] at h
          rw [← h]
          exact h2
        | ok tr =>
          obtain ⟨f1, sl1, r1⟩ := tr
          simp [mergeLoop, hid, he, hm] at h

/-- A successful merge scan changes the show list at most at one entry,
which receives the single assignment of key to value. -/
theorem mergeLoop_sget (key : String) (value : Val) (tid : Val) :
    ∀ (qs : List QItem) (sl : SList) (f : Bool) (sl2 : SList) (q2 : List QItem),
    mergeLoop key value tid sl qs = Except.ok (f, sl2, q2) →
    ∀ s, sget sl2 s = sget sl s ∨
      sget sl2 s = some (dset ((sget sl s).getD []) key value) := by
  intro qs
  induction qs with
  | nil =>
    intro sl f sl2 q2 h s
    simp [mergeLoop] at h
    rw [← h.2.1]
    exact Or.inl rfl
  | cons q rest ih =>
    intro sl f sl2 q2 h s
    cases hid : dget (qval sl q) kId with
    | none => simp [mergeLoop, hid] at h
    | some qid =>
      by_cases he : qid = tid
      · cases hact : dget (qval sl q) kAction with
        | none => simp [mergeLoop, hid, he, hact] at h
        | some act =>
          by_cases hu : act = aUpdate
          · cases q with
            | ref kk =>
              simp [mergeLoop, hid, he, hact, hu] at h
              rw [← h.2.1]
              by_cases hs : s = kk
              · subst hs
                rw [sget_sset_self]
                exact Or.inr rfl
              · rw [sget_sset_ne _ _ _ _ hs]
                exact Or.inl rfl
            | own dd =>
              simp [mergeLoop, hid, he, hact, hu] at h
              rw [← h.2.1]
              exact Or.inl rfl
          · cases hm : mergeLoop key value tid sl rest with
            | error e2 => simp [mergeLoop, hid, he, hact, hu, hm] at h
            | ok tr =>
              obtain ⟨f1, sl1, r1⟩ := tr
              simp [mergeLoop, hid, he, hact, hu, hm] at h
              rw [← h.2.1]
              exact ih sl f1 sl1 r1 hm s
      · cases hm : mergeLoop key value tid sl rest with
        | error e2 => simp [mergeLoop, hid, he, hm] at h
        | ok tr =>
          obtain ⟨f1, sl1, r1⟩ := tr
          simp [mergeLoop, hid, he, hm] at h
          rw [← h.2.1]
          exact ih sl f1 sl1 r1 hm s

theorem finishTitle_d (w : World) (d : DataObj) (s : Val) :
    (finishTitle w d s).d = d := by
  unfold finishTitle
  cases h : dget ((sget (d.showlist.getD []) s).getD []) kTitle <;> simp [h]

theorem finishTitle_err (w : World) (d : DataObj) (s : Val) :
    (finishTitle w d s).err = none ∨ (finishTitle w d s).err = some Err.keyError := by
  unfold finishTitle
  cases h : dget ((sget (d.showlist.getD []) s).getD []) kTitle <;> simp [h]

/-- The merge scan over a queue with no matching update item finds
nothing and changes nothing. -/
theorem mergeLoop_nomatch (key : String) (value : Val) (tid : Val) (sl : SList) :
    ∀ qs : List QItem, (∀ q ∈ qs, qOk sl tid q) →
    mergeLoop key value tid sl qs = Except.ok (false, sl, qs) := by
  intro qs
  induction qs with
  | nil => intro _; simp [mergeLoop]
  | cons q rest ih =>
    intro h
    obtain ⟨hid, himp⟩ := h q (List.mem_cons_self q rest)
    obtain ⟨qid, hqid⟩ := Option.isSome_iff_exists.mp hid
    have ihr := ih (fun i hi => h i (List.mem_cons_of_mem q hi))
    by_cases he : qid = tid
    · subst he
      obtain ⟨hact, hne⟩ := himp hqid
      obtain ⟨act, hacteq⟩ := Option.isSome_iff_exists.mp hact
      have hactne : ¬act = aUpdate := fun hh => hne (by rw [hacteq, hh])
      simp [mergeLoop, hqid, hacteq, hactne, ihr]
    · simp [mergeLoop, hqid, he, ihr]

/-- The merge scan over clean items followed by one matching own update
item assigns key to value on that final item and stops. -/
theorem mergeLoop_append_match (key : String) (value : Val) (tid : Val)
    (sl : SList) (dd : Dict)
    (hid : dget dd kId = some tid) (hact : dget dd kAction = some aUpdate) :
    ∀ qs : List QItem, (∀ q ∈ qs, qOk sl tid q) →
    mergeLoop key value tid sl (qs ++ [QItem.own dd]) =
      Except.ok (true, sl, qs ++ [QItem.own (dset dd key value)]) := by
  intro qs
  induction qs with
  | nil =>
    intro _
    simp [mergeLoop, qval, hid, hact]
  | cons q rest ih =>
    intro h
    obtain ⟨hid2, himp⟩ := h q (List.mem_cons_self q rest)
    obtain ⟨qid, hqid⟩ := Option.isSome_iff_exists.mp hid2
    have ihr := ih (fun i hi => h i (List.mem_cons_of_mem q hi))
    by_cases he : qid = tid
    · subst he
      obtain ⟨hact2, hne⟩ := himp hqid
      obtain ⟨act, hacteq⟩ := Option.isSome_iff_exists.mp hact2
      have hactne : ¬act = aUpdate := fun hh => hne (by rw [hacteq, hh])
      simp [mergeLoop, hqid, hacteq, hactne, ihr]
    · simp [mergeLoop, hqid, he, ihr]

/-- The duplicate-add scan raises nothing on a queue whose items all have
an id field and are not pending adds for showid. -/
theorem findDupAdd_none (sl : SList) (showid : Val) :
    ∀ qs : List QItem,
    (∀ q ∈ qs, (dget (qval sl q) kId).isSome ∧
      (dget (qval sl q) kId = some showid →
        (dget (qval sl q) kAction).isSome ∧
        dget (qval sl q) kAction ≠ some aAdd)) →
    findDupAdd sl showid qs = none := by
  intro qs
  induction qs with
  | nil => intro _; simp [findDupAdd]
  | cons q rest ih =>
    intro h
    obtain ⟨hid, himp⟩ := h q (List.mem_cons_self q rest)
    obtain ⟨qid, hqid⟩ := Option.isSome_iff_exists.mp hid
    have ihr := ih (fun i hi => h i (List.mem_cons_of_mem q hi))
    by_cases he : qid = showid
    · subst he
      obtain ⟨hact, hne⟩ := himp hqid
      obtain ⟨act, hacteq⟩ := Option.isSome_iff_exists.mp hact
      have hactne : ¬act = aAdd := fun hh => hne (by rw [hacteq, hh])
      simp [findDupAdd, hqid, hacteq, hactne, ihr]
    · simp [findDupAdd, hqid, he, ihr]

/-- The final message step preserves the instance and can only raise
KeyError, so any field already written to the show list stays visible. -/
theorem finishTitle_spec (w : World) (d : DataObj) (s : Val) (k : String) (v : Val)
    (h : dget ((sget (d.showlist.getD []) s).getD []) k = some v) :
    (finishTitle w d s).err ≠ some (Err.dataError mInvalidKey) ∧
    dget ((sget ((finishTitle w d s).d.showlist.getD []) s).getD []) k = some v := by
  constructor
  · rcases finishTitle_err w d s with h1 | h1 <;> rw [h1] <;> simp
  · rw [finishTitle_d]
    exact h

/-
C7.
-/

/-- C7: queue_update on the show stored under sid fails with the
invalid-key DataError exactly when the key is not already a field of the
show; on that failure nothing changes; when the key exists, the value is
written to the show record immediately and is visible in the show list
returned by get, whatever happens later in the call. -/
theorem queue_update_invalid_key_spec (w : World) (d : DataObj) (sid : Val)
    (k : String) (v : Val) (sl : SList) (sh : Dict)
    (hsl : d.showlist = some sl) (hsh : sget sl sid = some sh) :
    ((queue_update w d sid k v).err = some (Err.dataError mInvalidKey) ↔
      k ∉ dkeys sh) ∧
    (k ∉ dkeys sh →
      queue_update w d sid k v = ⟨w, d, some (Err.dataError mInvalidKey), []⟩) ∧
    (k ∈ dkeys sh →
      dget ((sget ((queue_update w d sid k v).d.showlist.getD []) sid).getD []) k =
        some v) := by
  by_cases hk : k ∈ dkeys sh
  · have hPQ : (queue_update w d sid k v).err ≠ some (Err.dataError mInvalidKey) ∧
        dget ((sget ((queue_update w d sid k v).d.showlist.getD []) sid).getD []) k =
          some v := by
      simp only [queue_update, hsl, Option.getD_some, hsh, hk, if_true]
      cases hid : dget (dset sh k v) kId with
      | none =>
        simp [hid, sget_sset_self, dget_dset_self]
      | some tid =>
        cases hm : mergeLoop k v tid (sset sl sid (dset sh k v))
            (getQueue w { d with showlist := some (sset sl sid (dset sh k v)) }) with
        | error e =>
          have he2 := mergeLoop_error k v tid _ _ e hm
          subst he2
          simp [hid, hm, sget_sset_self, dget_dset_self]
        | ok tr =>
          obtain ⟨f, sl2, q2⟩ := tr
          cases f with
          | false =>
            cases ht : dget (dset sh k v) kTitle with
            | none =>
              simp [hid, hm, ht, sget_sset_self, dget_dset_self]
            | some t =>
              simp only [hid, hm, ht]
              apply finishTitle_spec
              rw [putQueue_showlist]
              simp [sget_sset_self, dget_dset_self]
          | true =>
            simp only [hid, hm]
            have hsget := mergeLoop_sget k v tid _ _ _ _ _ hm sid
            apply finishTitle_spec
            rw [putQueue_showlist]
            rcases hsget with h2 | h2
            · rw [sget_sset_self] at h2
              simp [h2, dget_dset_self]
            · rw [sget_sset_self] at h2
              simp [h2, dget_dset_self]
    refine ⟨?_, ?_, ?_⟩
    · constructor
      · intro he
        exact absurd he hPQ.1
      · intro hnk
        exact absurd hk hnk
    · intro hnk
      exact absurd hk hnk
    · intro _
      exact hPQ.2
  · have hout : queue_update w d sid k v =
        ⟨w, d, some (Err.dataError mInvalidKey), []⟩ := by
      simp [queue_update, hsl, hsh, hk]
    refine ⟨?_, fun _ => hout, fun hk2 => absurd hk2 hk⟩
    rw [hout]
    simp [hk]

/-- C7 witness: updating a missing key fails with InvalidKey and changes
nothing; updating the existing score field is visible in the list. -/
theorem queue_update_invalid_key_spec_witness :
    (queue_update w0 dU (Val.vi 1) kEps (Val.vi 2) =
      ⟨w0, dU, some (Err.dataError mInvalidKey), []⟩) ∧
    dget ((sget ((queue_update w0 dU (Val.vi 1) kScore (Val.vi 9)).d.showlist.getD [])
      (Val.vi 1)).getD []) kScore = some (Val.vi 9) :=
  ⟨(queue_update_invalid_key_spec w0 dU (Val.vi 1) kEps (Val.vi 2)
      [(Val.vi 1, showF)] showF rfl (by decide)).2.1 (by decide),
   (queue_update_invalid_key_spec w0 dU (Val.vi 1) kScore (Val.vi 9)
      [(Val.vi 1, showF)] showF rfl (by decide)).2.2 (by decide)⟩

/-- When the entry under s has a title, the final message step is a
no-op returning no error. -/
theorem finishTitle_eq (w : World) (d : DataObj) (s : Val) (t : Val)
    (h : dget ((sget (d.showlist.getD []) s).getD []) kTitle = some t) :
    finishTitle w d s = ⟨w, d, none, []⟩ := by
  unfold finishTitle
  rw [h]

theorem getQueue_save_cache (w : World) (d : DataObj) :
    getQueue (save_cache w d) d = getQueue w d := by
  simp [save_cache, getQueue_putFS]

/-- Outcome of queue_update when the merge scan finds no pending update
item: the show is updated in place and a fresh update item carrying id,
the update tag, the title and the single changed field is appended. -/
theorem queue_update_notfound (w : World) (d : DataObj) (sid : Val)
    (key : String) (value : Val) (sl : SList) (sh : Dict) (tid : Val)
    (slX : SList) (qX : List QItem) (t : Val)
    (hsl : d.showlist = some sl) (hsh : sget sl sid = some sh)
    (hk : key ∈ dkeys sh)
    (hid : dget (dset sh key value) kId = some tid)
    (hm : mergeLoop key value tid (sset sl sid (dset sh key value))
      (getQueue w d) = Except.ok (false, slX, qX))
    (ht : dget (dset sh key value) kTitle = some t) :
    (queue_update w d sid key value).err = none ∧
    (queue_update w d sid key value).d.showlist =
      some (sset sl sid (dset sh key value)) ∧
    getQueue (queue_update w d sid key value).w
      (queue_update w d sid key value).d =
      getQueue w d ++
        [QItem.own (dset [(kId, tid), (kAction, aUpdate), (kTitle, t)]
          key value)] := by
  have hm2 : mergeLoop key value tid (sset sl sid (dset sh key value))
      (getQueue w { d with showlist := some (sset sl sid (dset sh key value)) }) =
      Except.ok (false, slX, qX) := by
    rw [getQueue_showlist]
    exact hm
  simp only [queue_update, hsl, Option.getD_some, hsh, hk, if_true, hid, hm2, ht]
  rw [finishTitle_eq _ _ _ t]
  · refine ⟨rfl, ?_, ?_⟩
    · rw [putQueue_showlist]
    · rw [getQueue_save_cache, getQueue_save_queue, putQueue_getQueue,
        getQueue_showlist]
  · simp only [putQueue_showlist, Option.getD_some]
    rw [sget_sset_self]
    exact ht

/-- Outcome of queue_update when the merge scan finds and updates a
pending update item: the show list and queue are those the scan
produced. -/
theorem queue_update_found (w : World) (d : DataObj) (sid : Val)
    (key : String) (value : Val) (sl : SList) (sh : Dict) (tid : Val)
    (sl2 : SList) (q2 : List QItem) (t : Val)
    (hsl : d.showlist = some sl) (hsh : sget sl sid = some sh)
    (hk : key ∈ dkeys sh)
    (hid : dget (dset sh key value) kId = some tid)
    (hm : mergeLoop key value tid (sset sl sid (dset sh key value))
      (getQueue w d) = Except.ok (true, sl2, q2))
    (ht : dget ((sget sl2 sid).getD []) kTitle = some t) :
    (queue_update w d sid key value).err = none ∧
    (queue_update w d sid key value).d.showlist = some sl2 ∧
    getQueue (queue_update w d sid key value).w
      (queue_update w d sid key value).d = q2 := by
  have hm2 : mergeLoop key value tid (sset sl sid (dset sh key value))
      (getQueue w { d with showlist := some (sset sl sid (dset sh key value)) }) =
      Except.ok (true, sl2, q2) := by
    rw [getQueue_showlist]
    exact hm
  simp only [queue_update, hsl, Option.getD_some, hsh, hk, if_true, hid, hm2]
  rw [finishTitle_eq _ _ _ t]
  · refine ⟨rfl, ?_, ?_⟩
    · rw [putQueue_showlist]
    · rw [getQueue_save_cache, getQueue_save_queue, putQueue_getQueue]
  · simp only [putQueue_showlist, Option.getD_some]
    exact ht

/-
C3.
-/

/-- C3 counterexample: two consecutive successful updates of the same
show with key action leave no pending update entry at all for that
identity (the second update does not merge into the first), refuting the
claim that exactly one update entry with the union of the fields
remains for any two keys. -/
theorem queue_update_merge_counterexample :
    (queue_update w0 dC3 (Val.vi 1) kAction (Val.vs tY)).err = none ∧
    (upd2 w0 dC3 (Val.vi 1) kAction (Val.vs tY) kAction (Val.vs tZ)).err = none ∧
    ((getQueue (upd2 w0 dC3 (Val.vi 1) kAction (Val.vs tY) kAction (Val.vs tZ)).w
        (upd2 w0 dC3 (Val.vi 1) kAction (Val.vs tY) kAction (Val.vs tZ)).d).map
      (qval ((upd2 w0 dC3 (Val.vi 1) kAction (Val.vs tY) kAction
        (Val.vs tZ)).d.showlist.getD []))).countP (isUpdateFor (Val.vi 1)) = 0 := by
  decide

/-- C3 amended: provided neither key is one of the reserved bookkeeping
fields id and action (which the code stores in the same dict as the
changed fields), two consecutive successful queue_update calls for the
same stored show leave exactly one pending update entry for that
identity, appended after the untouched rest of the queue, whose changed
fields are the union of the two updates with the later value winning on
a common key. -/
theorem queue_update_merge_amended (w : World) (d : DataObj) (sid : Val)
    (k1 : String) (v1 : Val) (k2 : String) (v2 : Val) (sl : SList) (sh : Dict)
    (hsl : d.showlist = some sl) (hsh : sget sl sid = some sh)
    (hshid : dget sh kId = some sid)
    (htitle : (dget sh kTitle).isSome)
    (hk1 : k1 ∈ dkeys sh) (hk2 : k2 ∈ dkeys sh)
    (hk1id : k1 ≠ kId) (hk1act : k1 ≠ kAction)
    (hk2id : k2 ≠ kId) (hk2act : k2 ≠ kAction)
    (hq : ∀ q ∈ getQueue w d, ∃ dd, q = QItem.own dd ∧ (dget dd kId).isSome ∧
      (dget dd kId = some sid → (dget dd kAction).isSome ∧
        dget dd kAction ≠ some aUpdate)) :
    (queue_update w d sid k1 v1).err = none ∧
    (upd2 w d sid k1 v1 k2 v2).err = none ∧
    ∃ u : Dict,
      getQueue (upd2 w d sid k1 v1 k2 v2).w (upd2 w d sid k1 v1 k2 v2).d =
        getQueue w d ++ [QItem.own u] ∧
      dget u kId = some sid ∧
      dget u kAction = some aUpdate ∧
      dget u k2 = some v2 ∧
      (k1 ≠ k2 → dget u k1 = some v1) ∧
      (∀ k', k' ≠ kId → k' ≠ kAction → k' ≠ kTitle → k' ≠ k1 → k' ≠ k2 →
        dget u k' = none) ∧
      ((getQueue (upd2 w d sid k1 v1 k2 v2).w
          (upd2 w d sid k1 v1 k2 v2).d).map
        (qval ((upd2 w d sid k1 v1 k2 v2).d.showlist.getD []))).countP
        (isUpdateFor sid) = 1 := by
  have hid1 : dget (dset sh k1 v1) kId = some sid := by
    rw [dget_dset_ne sh k1 v1 kId (Ne.symm hk1id)]
    exact hshid
  have ht1s : (dget (dset sh k1 v1) kTitle).isSome := by
    rw [dget_dset]
    by_cases hc : kTitle = k1
    · rw [if_pos hc]
      rfl
    · rw [if_neg hc]
      exact htitle
  obtain ⟨t1, ht1⟩ := Option.isSome_iff_exists.mp ht1s
  have hqok1 : ∀ q ∈ getQueue w d, qOk (sset sl sid (dset sh k1 v1)) sid q := by
    intro q hqm
    obtain ⟨dd, rfl, h1, h2⟩ := hq q hqm
    exact ⟨h1, h2⟩
  have hm1 := mergeLoop_nomatch k1 v1 sid (sset sl sid (dset sh k1 v1))
    (getQueue w d) hqok1
  have ho1 := queue_update_notfound w d sid k1 v1 sl sh sid
    (sset sl sid (dset sh k1 v1)) (getQueue w d) t1 hsl hsh hk1 hid1 hm1 ht1
  have hsh1 : sget (sset sl sid (dset sh k1 v1)) sid = some (dset sh k1 v1) :=
    sget_sset_self _ _ _
  have hk2b : k2 ∈ dkeys (dset sh k1 v1) := dkeys_dset_mono _ _ _ _ hk2
  have hid2 : dget (dset (dset sh k1 v1) k2 v2) kId = some sid := by
    rw [dget_dset_ne _ k2 v2 kId (Ne.symm hk2id)]
    exact hid1
  have hi1id : dget (dset [(kId, sid), (kAction, aUpdate), (kTitle, t1)] k1 v1)
      kId = some sid := by
    rw [dget_dset_ne _ k1 v1 kId (Ne.symm hk1id)]
    simp [dget]
  have hi1act : dget (dset [(kId, sid), (kAction, aUpdate), (kTitle, t1)] k1 v1)
      kAction = some aUpdate := by
    rw [dget_dset_ne _ k1 v1 kAction (Ne.symm hk1act)]
    simp [dget, kId, kAction]
  have hqok2 : ∀ q ∈ getQueue w d,
      qOk (sset (sset sl sid (dset sh k1 v1)) sid (dset (dset sh k1 v1) k2 v2))
        sid q := by
    intro q hqm
    obtain ⟨dd, rfl, h1, h2⟩ := hq q hqm
    exact ⟨h1, h2⟩
  have hm2base := mergeLoop_append_match k2 v2 sid
    (sset (sset sl sid (dset sh k1 v1)) sid (dset (dset sh k1 v1) k2 v2))
    (dset [(kId, sid), (kAction, aUpdate), (kTitle, t1)] k1 v1)
    hi1id hi1act (getQueue w d) hqok2
  have hm2 : mergeLoop k2 v2 sid
      (sset (sset sl sid (dset sh k1 v1)) sid (dset (dset sh k1 v1) k2 v2))
      (getQueue (queue_update w d sid k1 v1).w (queue_update w d sid k1 v1).d) =
      Except.ok (true,
        sset (sset sl sid (dset sh k1 v1)) sid (dset (dset sh k1 v1) k2 v2),
        getQueue w d ++ [QItem.own (dset (dset [(kId, sid), (kAction, aUpdate),
          (kTitle, t1)] k1 v1) k2 v2)]) := by
    rw [ho1.2.2]
    exact hm2base
  have ht2s : (dget (dset (dset sh k1 v1) k2 v2) kTitle).isSome := by
    rw [dget_dset]
    by_cases hc : kTitle = k2
    · rw [if_pos hc]
      rfl
    · rw [if_neg hc]
      exact ht1s
  obtain ⟨t2, ht2⟩ := Option.isSome_iff_exists.mp ht2s
  have ht2b : dget ((sget (sset (sset sl sid (dset sh k1 v1)) sid
      (dset (dset sh k1 v1) k2 v2)) sid).getD []) kTitle = some t2 := by
    rw [sget_sset_self]
    exact ht2
  have ho2 := queue_update_found (queue_update w d sid k1 v1).w
    (queue_update w d sid k1 v1).d sid k2 v2
    (sset sl sid (dset sh k1 v1)) (dset sh k1 v1) sid
    (sset (sset sl sid (dset sh k1 v1)) sid (dset (dset sh k1 v1) k2 v2))
    (getQueue w d ++ [QItem.own (dset (dset [(kId, sid), (kAction, aUpdate),
      (kTitle, t1)] k1 v1) k2 v2)])
    t2 ho1.2.1 hsh1 hk2b hid2 hm2 ht2b
  have hu1 : dget (dset (dset [(kId, sid), (kAction, aUpdate), (kTitle, t1)]
      k1 v1) k2 v2) kId = some sid := by
    rw [dget_dset_ne _ k2 v2 kId (Ne.symm hk2id)]
    exact hi1id
  have hu2 : dget (dset (dset [(kId, sid), (kAction, aUpdate), (kTitle, t1)]
      k1 v1) k2 v2) kAction = some aUpdate := by
    rw [dget_dset_ne _ k2 v2 kAction (Ne.symm hk2act)]
    exact hi1act
  refine ⟨ho1.1, ho2.1, ?_⟩
  refine ⟨dset (dset [(kId, sid), (kAction, aUpdate), (kTitle, t1)] k1 v1) k2 v2,
    ho2.2.2, hu1, hu2, dget_dset_self _ _ _, ?_, ?_, ?_⟩
  · intro hne
    rw [dget_dset_ne _ k2 v2 k1 hne]
    exact dget_dset_self _ _ _
  · intro k' h1 h2 h3 h4 h5
    rw [dget_dset_ne _ k2 v2 k' h5, dget_dset_ne _ k1 v1 k' h4]
    simp [dget, Ne.symm h1, Ne.symm h2, Ne.symm h3]
  · have hshow2 : (upd2 w d sid k1 v1 k2 v2).d.showlist =
        some (sset (sset sl sid (dset sh k1 v1)) sid
          (dset (dset sh k1 v1) k2 v2)) := ho2.2.1
    have hqueue2 : getQueue (upd2 w d sid k1 v1 k2 v2).w
        (upd2 w d sid k1 v1 k2 v2).d =
        getQueue w d ++ [QItem.own (dset (dset [(kId, sid), (kAction, aUpdate),
          (kTitle, t1)] k1 v1) k2 v2)] := ho2.2.2
    rw [hqueue2, hshow2]
    simp only [Option.getD_some, List.map_append, List.countP_append]
    have hz : ((getQueue w d).map (qval (sset (sset sl sid (dset sh k1 v1)) sid
        (dset (dset sh k1 v1) k2 v2)))).countP (isUpdateFor sid) = 0 := by
      rw [List.countP_eq_zero]
      intro x hx
      rw [List.mem_map] at hx
      obtain ⟨q, hqm, rfl⟩ := hx
      obtain ⟨dd, rfl, hdd1, hdd2⟩ := hq q hqm
      simp only [qval, isUpdateFor]
      by_cases hcase : dget dd kId = some sid
      · obtain ⟨hact, hne⟩ := hdd2 hcase
        simp [hcase, hne]
      · simp [hcase]
    rw [hz]
    simp [qval, List.countP_cons, isUpdateFor, hu1, hu2]

/-- C3 witness: on a one-show list with an empty queue, updating score
then title succeeds twice and leaves exactly one pending update entry. -/
theorem queue_update_merge_amended_witness :
    (queue_update w0 dU (Val.vi 1) kScore (Val.vi 9)).err = none ∧
    (upd2 w0 dU (Val.vi 1) kScore (Val.vi 9) kTitle (Val.vs tY)).err = none ∧
    ((getQueue (upd2 w0 dU (Val.vi 1) kScore (Val.vi 9) kTitle (Val.vs tY)).w
        (upd2 w0 dU (Val.vi 1) kScore (Val.vi 9) kTitle (Val.vs tY)).d).map
      (qval ((upd2 w0 dU (Val.vi 1) kScore (Val.vi 9) kTitle
        (Val.vs tY)).d.showlist.getD []))).countP (isUpdateFor (Val.vi 1)) = 1 := by
  have h := queue_update_merge_amended w0 dU (Val.vi 1) kScore (Val.vi 9)
    kTitle (Val.vs tY) [(Val.vi 1, showF)] showF rfl (by decide) (by decide)
    (by decide) (by decide) (by decide) (by decide) (by decide) (by decide)
    (by decide) (by intro q hqm; simp [getQueue, dU] at hqm)
  obtain ⟨h1, h2, u, hrest⟩ := h
  exact ⟨h1, h2, hrest.2.2.2.2.2.2⟩

theorem sset_sset (sl : SList) (k : Val) (a b : Dict) :
    sset (sset sl k a) k b = sset sl k b := by
  induction sl with
  | nil => simp [sset]
  | cons p rest ih =>
    by_cases h : p.1 = k
    · simp [sset, h]
    · simp [sset, h, ih]

/-- Outcome of a successful queue_add: the show object is stored in the
list, mutated with the action tag, and the queue gains a reference to
that very object. -/
theorem queue_add_success (w : World) (d : DataObj) (sh : Dict) (sid : Val)
    (sl : SList)
    (hsl : d.showlist = some sl) (hid : dget sh kId = some sid)
    (hnotin : truthy (sget sl sid) = false)
    (hdup : findDupAdd (sset sl sid sh) sid (getQueue w d) = none)
    (htitle : (dget sh kTitle).isSome) :
    (queue_add w d sh).err = none ∧
    (queue_add w d sh).d.showlist = some (sset sl sid (dset sh kAction aAdd)) ∧
    getQueue (queue_add w d sh).w (queue_add w d sh).d =
      getQueue w d ++ [QItem.ref sid] := by
  obtain ⟨t, ht⟩ := Option.isSome_iff_exists.mp htitle
  have hdup2 : findDupAdd (sset sl sid sh) sid
      (getQueue w { d with showlist := some (sset sl sid sh) }) = none := by
    rw [getQueue_showlist]
    exact hdup
  simp only [queue_add, hid, hsl, hnotin, Bool.false_eq_true, if_false, hdup2, ht]
  refine ⟨trivial, ?_, ?_⟩
  · rw [putQueue_showlist]
    simp only [sset_sset]
  · rw [getQueue_save_cache, getQueue_save_queue, putQueue_getQueue,
      getQueue_showlist, getQueue_showlist]

/-
C10.
-/

/-- C10: a successful queue_add appends the very show record, not a
copy, as the pending add item: the item is a reference to the show list
entry, the entry returned by get carries the extra action field set to
the add tag, and a later queue_update of field k through the show list
is visible in the value of the still-queued add item. -/
theorem queue_add_alias_spec (w : World) (d : DataObj) (sh : Dict) (sid : Val)
    (k : String) (v : Val) (sl : SList)
    (hsl : d.showlist = some sl)
    (hid : dget sh kId = some sid)
    (htitle : (dget sh kTitle).isSome)
    (hnotin : truthy (sget sl sid) = false)
    (hk : k ∈ dkeys sh) (hkid : k ≠ kId) (hkact : k ≠ kAction)
    (hq : ∀ q ∈ getQueue w d, ∃ dd, q = QItem.own dd ∧ (dget dd kId).isSome ∧
      (dget dd kId = some sid → (dget dd kAction).isSome ∧
        dget dd kAction ≠ some aAdd ∧ dget dd kAction ≠ some aUpdate)) :
    (queue_add w d sh).err = none ∧
    getQueue (queue_add w d sh).w (queue_add w d sh).d =
      getQueue w d ++ [QItem.ref sid] ∧
    sget ((queue_add w d sh).d.showlist.getD []) sid =
      some (dset sh kAction aAdd) ∧
    (addUpd w d sh sid k v).err = none ∧
    QItem.ref sid ∈ getQueue (addUpd w d sh sid k v).w (addUpd w d sh sid k v).d ∧
    dget (qval ((addUpd w d sh sid k v).d.showlist.getD []) (QItem.ref sid)) k =
      some v := by
  have hdup : findDupAdd (sset sl sid sh) sid (getQueue w d) = none := by
    apply findDupAdd_none
    intro q hqm
    obtain ⟨dd, rfl, h1, h2⟩ := hq q hqm
    exact ⟨h1, fun hh => ⟨(h2 hh).1, (h2 hh).2.1⟩⟩
  have hoA := queue_add_success w d sh sid sl hsl hid hnotin hdup htitle
  have hidA : dget (dset sh kAction aAdd) kId = some sid := by
    rw [dget_dset_ne sh kAction aAdd kId (by decide)]
    exact hid
  have hshA : sget (sset sl sid (dset sh kAction aAdd)) sid =
      some (dset sh kAction aAdd) := sget_sset_self _ _ _
  have hgetA : sget ((queue_add w d sh).d.showlist.getD []) sid =
      some (dset sh kAction aAdd) := by
    rw [hoA.2.1]
    simp only [Option.getD_some]
    exact hshA
  have hkA : k ∈ dkeys (dset sh kAction aAdd) := dkeys_dset_mono _ _ _ _ hk
  have hidB : dget (dset (dset sh kAction aAdd) k v) kId = some sid := by
    rw [dget_dset_ne _ k v kId (Ne.symm hkid)]
    exact hidA
  have hactB : dget (dset (dset sh kAction aAdd) k v) kAction = some aAdd := by
    rw [dget_dset_ne _ k v kAction (Ne.symm hkact)]
    exact dget_dset_self _ _ _
  have htB : (dget (dset (dset sh kAction aAdd) k v) kTitle).isSome := by
    rw [dget_dset]
    by_cases hc : kTitle = k
    · rw [if_pos hc]
      rfl
    · rw [if_neg hc]
      rw [dget_dset_ne sh kAction aAdd kTitle (by decide)]
      exact htitle
  obtain ⟨t2, ht2⟩ := Option.isSome_iff_exists.mp htB
  have hqok : ∀ q ∈ getQueue w d ++ [QItem.ref sid],
      qOk (sset (sset sl sid (dset sh kAction aAdd)) sid
        (dset (dset sh kAction aAdd) k v)) sid q := by
    intro q hqm
    rcases List.mem_append.mp hqm with hold | hnew
    · obtain ⟨dd, rfl, h1, h2⟩ := hq q hold
      exact ⟨h1, fun hh => ⟨(h2 hh).1, (h2 hh).2.2⟩⟩
    · have hq2 : q = QItem.ref sid := by simpa using hnew
      subst hq2
      have hv : qval (sset (sset sl sid (dset sh kAction aAdd)) sid
          (dset (dset sh kAction aAdd) k v)) (QItem.ref sid) =
          dset (dset sh kAction aAdd) k v := by
        simp only [qval, sget_sset_self, Option.getD_some]
      refine ⟨?_, fun _ => ⟨?_, ?_⟩⟩
      · rw [hv, hidB]
        rfl
      · rw [hv, hactB]
        rfl
      · rw [hv, hactB]
        simp [aAdd, aUpdate, sAdd, sUpdate]
  have hm := mergeLoop_nomatch k v sid
    (sset (sset sl sid (dset sh kAction aAdd)) sid
      (dset (dset sh kAction aAdd) k v))
    (getQueue w d ++ [QItem.ref sid]) hqok
  have hm2 : mergeLoop k v sid
      (sset (sset sl sid (dset sh kAction aAdd)) sid
        (dset (dset sh kAction aAdd) k v))
      (getQueue (queue_add w d sh).w (queue_add w d sh).d) =
      Except.ok (false,
        sset (sset sl sid (dset sh kAction aAdd)) sid
          (dset (dset sh kAction aAdd) k v),
        getQueue w d ++ [QItem.ref sid]) := by
    rw [hoA.2.2]
    exact hm
  have hoB := queue_update_notfound (queue_add w d sh).w (queue_add w d sh).d
    sid k v (sset sl sid (dset sh kAction aAdd)) (dset sh kAction aAdd) sid
    (sset (sset sl sid (dset sh kAction aAdd)) sid
      (dset (dset sh kAction aAdd) k v))
    (getQueue w d ++ [QItem.ref sid]) t2
    hoA.2.1 hshA hkA hidB hm2 ht2
  have hq3 : getQueue (addUpd w d sh sid k v).w (addUpd w d sh sid k v).d =
      (getQueue w d ++ [QItem.ref sid]) ++
        [QItem.own (dset [(kId, sid), (kAction, aUpdate), (kTitle, t2)] k v)] := by
    have h3 := hoB.2.2
    rw [hoA.2.2] at h3
    exact h3
  refine ⟨hoA.1, hoA.2.2, hgetA, hoB.1, ?_, ?_⟩
  · rw [hq3]
    exact List.mem_append.mpr (Or.inl (List.mem_append.mpr (Or.inr (by simp))))
  · rw [show (addUpd w d sh sid k v).d.showlist =
      some (sset (sset sl sid (dset sh kAction aAdd)) sid
        (dset (dset sh kAction aAdd) k v)) from hoB.2.1]
    simp only [Option.getD_some, qval, sget_sset_self]
    exact dget_dset_self _ _ _

/-- C10 witness: adding showF then updating its score through the list
changes the score field of the still-queued add item. -/
theorem queue_add_alias_spec_witness :
    (queue_add w0 dEmpty showF).err = none ∧
    getQueue (queue_add w0 dEmpty showF).w (queue_add w0 dEmpty showF).d =
      getQueue w0 dEmpty ++ [QItem.ref (Val.vi 1)] ∧
    sget ((queue_add w0 dEmpty showF).d.showlist.getD []) (Val.vi 1) =
      some (dset showF kAction aAdd) ∧
    (addUpd w0 dEmpty showF (Val.vi 1) kScore (Val.vi 9)).err = none ∧
    QItem.ref (Val.vi 1) ∈
      getQueue (addUpd w0 dEmpty showF (Val.vi 1) kScore (Val.vi 9)).w
        (addUpd w0 dEmpty showF (Val.vi 1) kScore (Val.vi 9)).d ∧
    dget (qval ((addUpd w0 dEmpty showF (Val.vi 1) kScore
        (Val.vi 9)).d.showlist.getD []) (QItem.ref (Val.vi 1))) kScore =
      some (Val.vi 9) :=
  queue_add_alias_spec w0 dEmpty showF (Val.vi 1) kScore (Val.vi 9) []
    rfl (by decide) (by decide) (by decide) (by decide) (by decide) (by decide)
    (by intro q hqm; simp [getQueue, dEmpty] at hqm)
